import Mathlib

/-!
Verification of the PTS simulation-log timeline subsystem
(`pts/core/simulation/logfile.py`, `pts/core/extract/timeline.py`,
`pts/core/tools/time.py`) against its natural-language specification.

Modelling conventions for the shallow embedding:
* Python strings are `List Char`; the Python substring test `needle in hay`
  is `pyIn needle hay`.
* Python exceptions are the `.error` constructor of `Except String`; the
  message identifies the exception that the original raises.
* `datetime` values appearing in the timeline arithmetic are represented by
  exact rationals (seconds); `datetime` subtraction followed by
  `total_seconds()` corresponds to subtraction in `ℚ`.  Python floats are
  modelled by exact rationals as well.
-/

/-- Python substring test `needle in hay` (`str.__contains__`). -/
def pyIn (needle : List Char) : List Char → Bool
  | [] => needle.isEmpty
  | c :: rest => needle.isPrefixOf (c :: rest) || pyIn needle rest

/-- The closed set of simulation phase tags; the Python code uses the strings
"start", "setup", "wait", "comm", "stellar", "spectra", "dust", "write", and
`None` for "no active phase" (modelled as `Option Phase` with `none`). -/
inductive Phase where
  | start | setup | wait | comm | stellar | spectra | dust | write
deriving DecidableEq, Repr

/-- Model of `search_start` from `logfile.py`. -/
def search_start (line : List Char) : Bool :=
  pyIn "Starting simulation".data line

/-- Model of `search_end` from `logfile.py`. -/
def search_end (line : List Char) : Bool :=
  if pyIn "Finished setup".data line then true
  else if pyIn "Finished the stellar emission phase".data line then true
  else if pyIn "Finished communication of the absorbed luminosities".data line then true
  else if pyIn "Finished communication of the dust emission spectra".data line then true
  else if pyIn "Finished the".data line && pyIn "-stage dust self-absorption cycle".data line then true
  else if pyIn "Finished the dust emission phase".data line then true
  else if pyIn "Finished writing results".data line then true
  else if pyIn "Finished communication of".data line then true
  else false

/-- Model of `search_setup` from `logfile.py`. -/
def search_setup (line : List Char) : Bool :=
  if pyIn "Starting setup".data line then true
  else if pyIn "Finished communication of the dust densities".data line then true
  else false

/-- The six "Waiting for other processes ..." marker phrases that appear in
`search_wait` in `logfile.py`, in source order. -/
def waitMarker : Fin 6 → List Char :=
  !["Waiting for other processes to finish the calculation of the dust cell densities".data,
    "Waiting for other processes to finish the setup".data,
    "Waiting for other processes to finish the stellar emission phase".data,
    "Waiting for other processes to finish the emission spectra calculation".data,
    "Waiting for other processes to finish this self-absorption cycle".data,
    "Waiting for other processes to finish the dust emission phase".data]

/-- Model of `search_wait` from `logfile.py`. -/
def search_wait (line : List Char) : Bool :=
  if pyIn (waitMarker 0) line then true
  else if pyIn (waitMarker 1) line then true
  else if pyIn (waitMarker 2) line then true
  else if pyIn (waitMarker 3) line then true
  else if pyIn (waitMarker 4) line then true
  else if pyIn (waitMarker 5) line then true
  else false

/-- Model of `search_comm` from `logfile.py`. -/
def search_comm (line : List Char) : Bool :=
  if pyIn "Starting communication of the dust densities".data line then true
  else if pyIn "Starting communication of the absorbed luminosities".data line then true
  else if pyIn "Starting communication of the dust emission spectra".data line then true
  else if pyIn "Starting communication of".data line then true
  else false

/-- Model of `search_stellar` from `logfile.py`. -/
def search_stellar (line : List Char) : Bool :=
  pyIn "Starting the stellar emission phase".data line

/-- Model of `search_spectra` from `logfile.py`. -/
def search_spectra (line : List Char) : Bool :=
  pyIn "Library entries in use".data line

/-- Model of `search_dust` from `logfile.py`. -/
def search_dust (line : List Char) : Bool :=
  pyIn "Dust emission spectra calculated".data line

/-- Model of `search_write` from `logfile.py`. -/
def search_write (line : List Char) : Bool :=
  pyIn "Starting writing results".data line

/-- Model of `get_phase` from `logfile.py`: the phase-classification state machine. -/
def get_phase (line : List Char) (current : Option Phase) : Option Phase :=
  if search_start line then some .start
  else if search_end line then none
  else if search_setup line then some .setup
  else if search_wait line then some .wait
  else if search_comm line then some .comm
  else if search_stellar line then some .stellar
  else if search_spectra line then some .spectra
  else if search_dust line then some .dust
  else if search_write line then some .write
  else current

/-- The ordered predicate table of the classifier, spec section 4.2: each entry
pairs a substring predicate with the phase it selects. -/
def phaseRules : List ((List Char → Bool) × Option Phase) :=
  [(search_start, some .start), (search_end, none), (search_setup, some .setup),
   (search_wait, some .wait), (search_comm, some .comm), (search_stellar, some .stellar),
   (search_spectra, some .spectra), (search_dust, some .dust), (search_write, some .write)]

/-- First-match-wins evaluation of an ordered rule table. -/
def firstRuleMatch : List ((List Char → Bool) × Option Phase) → List Char → Option (Option Phase)
  | [], _ => none
  | (p, ph) :: rest, line => if p line then some ph else firstRuleMatch rest line

/-- The stellar-emission scenario line of spec section 8. -/
def stellarLine : List Char :=
  "03/04/2020 10:22:01.123   Starting the stellar emission phase".data

/-- An immediately following unrelated info line (no classifier marker). -/
def followLine : List Char :=
  "03/04/2020 10:22:01.223   Launched stellar emission photon packages: 10000".data

/-! ### Python string and number primitives used by the parsers -/

instance {ε α : Type} [DecidableEq ε] [DecidableEq α] : DecidableEq (Except ε α)
  | .ok a, .ok b =>
    if h : a = b then isTrue (congrArg Except.ok h)
    else isFalse fun he => h (Except.ok.inj he)
  | .ok _, .error _ => isFalse fun he => Except.noConfusion he
  | .error _, .ok _ => isFalse fun he => Except.noConfusion he
  | .error e, .error f =>
    if h : e = f then isTrue (congrArg Except.error h)
    else isFalse fun he => h (Except.error.inj he)

/-- Python list indexing `l[i]` for a non-negative index: raises `IndexError`
when out of range. -/
def pyIndex {α : Type} (l : List α) (i : ℕ) : Except String α :=
  match l.get? i with
  | some a => .ok a
  | none => .error "IndexError: list index out of range"

/-- Python list indexing `l[i]` for a possibly negative index (`l[-1]` is the
last element). -/
def pyIndexI {α : Type} (l : List α) (i : ℤ) : Except String α :=
  if 0 ≤ i then pyIndex l i.toNat
  else
    match l.get? (l.length - (-i).toNat) with
    | some a => if (-i).toNat ≤ l.length then .ok a else .error "IndexError: list index out of range"
    | none => .error "IndexError: list index out of range"

/-- Worker for `pySplit`: scans the text one character at a time looking for
the leftmost occurrence of the (non-empty) separator.  The structural fuel
argument starts at the text length, which every step decreases by at least
one, so the fuel-exhausted branch is never reached in `pySplit`. -/
def pySplitGo (sep : List Char) : ℕ → List Char → List Char → List (List Char)
  | _, [], acc => [acc.reverse]
  | 0, l, acc => [acc.reverse ++ l]
  | fuel + 1, c :: rest, acc =>
    if sep.isPrefixOf (c :: rest)
    then acc.reverse :: pySplitGo sep fuel (List.drop (sep.length - 1) rest) []
    else pySplitGo sep fuel rest (c :: acc)

/-- Python `text.split(sep)` for a non-empty separator string (Python raises
on an empty separator, which never occurs in the modelled code). -/
def pySplit (sep text : List Char) : List (List Char) :=
  match sep with
  | [] => [text]
  | _ :: _ => pySplitGo sep text.length text []

/-- Python whitespace test (`str.isspace` members used by `str.split()`). -/
def pyIsSpace (c : Char) : Bool :=
  c = ' ' || c = '\t' || c = '\n' || c = '\x0d' || c = '\x0b' || c = '\x0c'

/-- Python `text.split(None, 2)`: split on whitespace runs into at most three
parts, the third keeping the remainder verbatim; no empty fields are
produced. -/
def wsSplit2 (text : List Char) : List (List Char) :=
  let r0 := text.dropWhile pyIsSpace
  if r0.isEmpty then []
  else
    let tok1 := r0.takeWhile (fun c => !pyIsSpace c)
    let r1 := (r0.dropWhile (fun c => !pyIsSpace c)).dropWhile pyIsSpace
    if r1.isEmpty then [tok1]
    else
      let tok2 := r1.takeWhile (fun c => !pyIsSpace c)
      let r2 := (r1.dropWhile (fun c => !pyIsSpace c)).dropWhile pyIsSpace
      if r2.isEmpty then [tok1, tok2] else [tok1, tok2, r2]

/-- Decimal value of a non-empty digit string. -/
def digitsVal (ds : List Char) : ℕ :=
  ds.foldl (fun acc c => 10 * acc + (c.toNat - '0'.toNat)) 0

/-- Error message of Python `int()` on a malformed literal. -/
def intErrMsg : String := "ValueError: invalid literal for int() with base 10"

/-- Python `int(s)`: strips surrounding whitespace, accepts an optional sign
followed by one or more decimal digits. -/
def pyInt (s : List Char) : Except String ℤ :=
  let t := ((s.dropWhile pyIsSpace).reverse.dropWhile pyIsSpace).reverse
  match t with
  | '+' :: ds =>
    if !ds.isEmpty && ds.all Char.isDigit then .ok (digitsVal ds) else .error intErrMsg
  | '-' :: ds =>
    if !ds.isEmpty && ds.all Char.isDigit then .ok (-(digitsVal ds : ℤ)) else .error intErrMsg
  | ds =>
    if !ds.isEmpty && ds.all Char.isDigit then .ok (digitsVal ds) else .error intErrMsg

/-- Python `float(s)` restricted to the plain decimal literals that occur in
SKIRT memory fields; the IEEE-754 rounding of the original is abstracted to
the exact rational value (no claim depends on memory values). -/
def pyFloatDec (s : List Char) : Except String ℚ :=
  let t := ((s.dropWhile pyIsSpace).reverse.dropWhile pyIsSpace).reverse
  let signed : Bool × List Char :=
    match t with
    | '+' :: ds => (false, ds)
    | '-' :: ds => (true, ds)
    | ds => (false, ds)
  let (neg, body) := signed
  match pySplit ['.'] body with
  | [ip, fp] =>
    if (!ip.isEmpty || !fp.isEmpty) && ip.all Char.isDigit && fp.all Char.isDigit then
      let v : ℚ := (digitsVal ip : ℚ) + (digitsVal fp : ℚ) / ((10 : ℚ) ^ fp.length)
      .ok (if neg then -v else v)
    else .error "ValueError: could not convert string to float"
  | [ip] =>
    if !ip.isEmpty && ip.all Char.isDigit then
      .ok (if neg then -(digitsVal ip : ℚ) else (digitsVal ip : ℚ))
    else .error "ValueError: could not convert string to float"
  | _ => .error "ValueError: could not convert string to float"

/-! ### The timestamp parser (`pts/core/tools/time.py`) -/

/-- A Python `datetime` value as constructed by `parse_date_time`. -/
structure Datetime where
  year : ℤ
  month : ℤ
  day : ℤ
  hour : ℤ
  minute : ℤ
  second : ℤ
  microsecond : ℤ
deriving DecidableEq, Repr

/-- Number of days in a month, with Python's leap-year rule. -/
def daysInMonth (year month : ℤ) : ℤ :=
  if month = 2 then
    if year % 4 = 0 && (year % 100 ≠ 0 || year % 400 = 0) then 29 else 28
  else if month = 4 || month = 6 || month = 9 || month = 11 then 30
  else 31

/-- The `datetime(...)` constructor with Python's range validation. -/
def mkDatetime (year month day hour minute second microsecond : ℤ) :
    Except String Datetime :=
  if 1 ≤ year && year ≤ 9999 && 1 ≤ month && month ≤ 12 &&
      1 ≤ day && day ≤ daysInMonth year month &&
      0 ≤ hour && hour ≤ 23 && 0 ≤ minute && minute ≤ 59 &&
      0 ≤ second && second ≤ 59 && 0 ≤ microsecond && microsecond ≤ 999999 then
    .ok ⟨year, month, day, hour, minute, second, microsecond⟩
  else .error "ValueError: datetime argument out of range"

/-- Model of `parse_date_time` from `time.py`.  Only the three-way unpacking of
`date.split('/')` is protected by `try/except ValueError` (returning the
non-fatal `None`); every later failure, including `int()` on a non-numeric
field, propagates as a fatal error. -/
def parse_date_time (date time : List Char) : Except String (Option Datetime) :=
  match pySplit ['/'] date with
  | [day, month, year] =>
    match pySplit [':'] time with
    | [hour, minute, secfrac] =>
      match pySplit ['.'] secfrac with
      | [second, microsecond] =>
        match pyInt year with
        | .error e => .error e
        | .ok y =>
          match pyInt month with
          | .error e => .error e
          | .ok mo =>
            match pyInt day with
            | .error e => .error e
            | .ok d =>
              match pyInt hour with
              | .error e => .error e
              | .ok h =>
                match pyInt minute with
                | .error e => .error e
                | .ok mi =>
                  match pyInt second with
                  | .error e => .error e
                  | .ok s =>
                    match pyInt microsecond with
                    | .error e => .error e
                    | .ok us =>
                      match mkDatetime y mo d h mi s us with
                      | .error e => .error e
                      | .ok dt => .ok (some dt)
      | _ => .error "ValueError: unpacking second.split failed"
    | _ => .error "ValueError: unpacking time.split failed"
  | _ => .ok none

/-- Model of `parse_line` from `time.py`: splits the log line into date token, time
token and the rest, then delegates to `parse_date_time`.  The three-way
unpacking of `line.split(None, 2)` is unprotected and fatal when the line has
fewer than three whitespace-separated fields. -/
def parse_line (line : List Char) : Except String (Option Datetime) :=
  match wsSplit2 line with
  | [date, time, _] => parse_date_time date time
  | _ => .error "ValueError: unpacking line.split failed"

/-! ### The log file parser (`parse` in `pts/core/simulation/logfile.py`) -/

/-- Message severity, as stored in the "Type" column. -/
inductive Severity where
  | info | success | warning | error
deriving DecidableEq, Repr

/-- The severity map applied to the character at column 24 of a stripped log
line: space, '-', '!', '*' are recognised; anything else is the fatal
"Could not determine the type of log message" ValueError. -/
def sevOf (c : Char) : Option Severity :=
  if c = ' ' then some .info
  else if c = '-' then some .success
  else if c = '!' then some .warning
  else if c = '*' then some .error
  else none

/-- Message of the fatal severity error raised by `parse`. -/
def sevErrMsg : String := "Could not determine the type of log message"

/-- The fatal-error marker; lines containing it are skipped entirely. -/
def errMarker : List Char := "*** Error:".data

/-- The accumulated state of the `parse` loop: the five column lists, the two
once-set format flags, and the current phase threaded through the
classifier. -/
structure PState where
  times : List (Option Datetime)
  phases : List (Option Phase)
  messages : List (List Char)
  types : List Severity
  memories : List ℚ
  verbose : Option Bool
  memory : Option Bool
  current : Option Phase
deriving DecidableEq, Repr

/-- Initial state of the `parse` loop. -/
def pInit : PState := ⟨[], [], [], [], [], none, none, none⟩

/-- One iteration of the `parse` loop over a raw line (with its terminator):
skip fatal-error-marker lines, strip the terminator, parse the timestamp,
detect the verbose/memory format on the first applicable line, extract the
memory field and the message, map the severity character at column 24, and
feed the line to the phase classifier. -/
def parseStep (st : PState) (rawLine : List Char) : Except String PState :=
  if pyIn errMarker rawLine then .ok st
  else
    let line := rawLine.dropLast
    match parse_line line with
    | .error e => .error e
    | .ok t =>
      let verbose : Bool := match st.verbose with
        | none => pyIn "[P".data line
        | some b => b
      let memory : Bool := match st.memory with
        | none => pyIn "GB)".data line
        | some b => b
      let extracted : Except String (Option ℚ × List Char) :=
        if memory then
          match pyIndex (pySplit " (".data line) 1 with
          | .error e => .error e
          | .ok p1 =>
            match pyIndex (pySplit " GB)".data p1) 0 with
            | .error e => .error e
            | .ok tok =>
              match pyFloatDec tok with
              | .error e => .error e
              | .ok mv =>
                match pyIndex (pySplit "GB) ".data line) 1 with
                | .error e => .error e
                | .ok msg => .ok (some mv, msg)
        else if verbose then
          match pyIndex (pySplit "] ".data line) 1 with
          | .error e => .error e
          | .ok msg => .ok (none, msg)
        else .ok (none, line.drop 26)
      match extracted with
      | .error e => .error e
      | .ok (mv, message) =>
        match line.get? 24 with
        | none => .error "IndexError: string index out of range"
        | some c =>
          match sevOf c with
          | none => .error sevErrMsg
          | some sev =>
            let cur := get_phase line st.current
            .ok ⟨st.times ++ [t], st.phases ++ [cur], st.messages ++ [message],
                 st.types ++ [sev],
                 st.memories ++ (match mv with | some v => [v] | none => []),
                 some verbose, some memory, cur⟩

/-- The `parse` loop over all raw lines of the file. -/
def parseLines : PState → List (List Char) → Except String PState
  | st, [] => .ok st
  | st, l :: rest =>
    match parseStep st l with
    | .error e => .error e
    | .ok st' => parseLines st' rest

/-- Model of `parse` from `logfile.py`: the resulting state carries the column lists
from which the astropy `Table` is built (Time, Phase, Message, Type, and
Memory when memory logging was detected). -/
def parse (lines : List (List Char)) : Except String PState :=
  parseLines pInit lines

/-- A raw line is kept when it does not contain the fatal-error marker. -/
def keepLine (l : List Char) : Bool := !pyIn errMarker l

/-- Boolean success test for `Except` results. -/
def exOk {ε α : Type} : Except ε α → Bool
  | .ok _ => true
  | .error _ => false

/-- Severity assigned to a raw line: the map of the character at column 24 of
the stripped line (`none` when absent or unrecognised). -/
def sevOf24 (l : List Char) : Option Severity :=
  match l.dropLast.get? 24 with
  | some c => sevOf c
  | none => none

/-- A two-line plain-mode file whose second line carries the unrecognised
severity character '?' at column 24. -/
def c7lines : List (List Char) :=
  ["03/04/2020 10:22:01.123 - Finished setup.\n".data,
   "03/04/2020 10:22:01.456 ? Starting writing results.\n".data]

/-- A two-line plain-mode file whose first line has an unparseable date token
("03-04-2020" has no '/'-separated fields). -/
def c8lines : List (List Char) :=
  ["03-04-2020 10:22:01.123 - Finished setup.\n".data,
   "03/04/2020 10:22:02.456   Starting simulation a6 with 4 processes\n".data]

/-! ### `LogFile.threads` (`logfile.py`) -/

/-- The message marker of the thread-initialisation lines. -/
def initMarker : List Char := "Initializing random number generator".data

/-- Message of the fatal error raised when `threads` falls off the loop. -/
def threadsErrMsg : String := "The number of threads could not be determined from the log file"

/-- The index extraction
`int(message.split("thread number ")[1].split(" with seed")[0])`. -/
def threadIdx (msg : List Char) : Except String ℤ :=
  match pyIndex (pySplit "thread number ".data msg) 1 with
  | .error e => .error e
  | .ok p1 =>
    match pyIndex (pySplit " with seed".data p1) 0 with
    | .error e => .error e
    | .ok tok => pyInt tok

/-- The `threads` loop: `triggered` records that a thread-initialisation
message has been seen, `mx` the most recently read thread index; the first
non-matching message after the run returns `mx + 1`. -/
def threadsLoop : List (List Char) → Bool → ℤ → Except String ℤ
  | [], _, _ => .error threadsErrMsg
  | msg :: rest, triggered, mx =>
    if pyIn initMarker msg then
      match threadIdx msg with
      | .error e => .error e
      | .ok n => threadsLoop rest true n
    else if triggered then .ok (mx + 1)
    else threadsLoop rest triggered mx

/-- Model of `LogFile.threads` from `logfile.py`, over the "Message" column. -/
def threads (messages : List (List Char)) : Except String ℤ :=
  threadsLoop messages false 0

/-- A thread-initialisation message with thread index 0. -/
def c9msg0 : List Char :=
  "Initializing random number generator for thread number 0 with seed 4357".data

/-- A thread-initialisation message with thread index 1. -/
def c9msg1 : List Char :=
  "Initializing random number generator for thread number 1 with seed 4358".data

/-! ### The timeline extractor (`pts/core/extract/timeline.py`)

Timestamps are represented as exact rationals (seconds); the `datetime`
subtractions followed by `total_seconds()` of the original become rational
subtractions. -/

/-- The four parallel column lists built by `TimeLineExtractor.extract` and
repaired by `verify_phases`, with the source's variable names. -/
structure Columns where
  process_list : List ℕ
  phase_list : List (Option Phase)
  start_list : List ℚ
  end_list : List ℚ
deriving DecidableEq, Repr

/-- One parsed log file as consumed by the extractor: its process rank and
the (Time, Phase) columns of `log_file.contents`. -/
structure LogData where
  process : ℕ
  contents : List (ℚ × Option Phase)
deriving DecidableEq, Repr

/-- Model of `log_file.t_0`: the time of the first entry.  Python raises `IndexError`
on an empty contents table; `extract` models that failure up front, so the
default value of the empty branch is never consumed. -/
def fileT0 (l : LogData) : ℚ :=
  match l.contents with
  | [] => 0
  | e :: _ => e.1

/-- Model of `log_file.t_last`: the time of the last entry (same emptiness caveat as
`fileT0`). -/
def fileTLast (l : LogData) : ℚ :=
  match l.contents.getLast? with
  | none => 0
  | some e => e.1

/-- The phase-change scan of the extractor's inner loop: starting from the
current phase, record `(time, phase)` at every entry whose phase differs from
the current one, updating the current phase. -/
def scanChanges : Option Phase → List (ℚ × Option Phase) → List (ℚ × Option Phase)
  | _, [] => []
  | cur, (t, p) :: rest =>
    if p ≠ cur then (t, p) :: scanChanges p rest else scanChanges cur rest

/-- The per-file contribution of the extractor's main loop to the four column
lists: the first row opens at `t_0_file - t_0`, every phase change closes the
previous row and opens the next at the change time, and the final row closes
at `t_last - t_0`. -/
def fileColumns (t0 : ℚ) (l : LogData) : Columns :=
  match l.contents with
  | [] => ⟨[], [], [], []⟩
  | (tf, pf) :: rest =>
    let ch := scanChanges pf ((tf, pf) :: rest)
    ⟨List.replicate (ch.length + 1) l.process,
     pf :: ch.map Prod.snd,
     (tf - t0) :: ch.map (fun e => e.1 - t0),
     ch.map (fun e => e.1 - t0) ++ [fileTLast l - t0]⟩

/-- Concatenation of column contributions (the per-file appends of the
source). -/
def appendColumns (a b : Columns) : Columns :=
  ⟨a.process_list ++ b.process_list, a.phase_list ++ b.phase_list,
   a.start_list ++ b.start_list, a.end_list ++ b.end_list⟩

/-- The global zero time: the source initialises `t_0 = datetime.now()` and
takes the minimum with every file's `t_0`. -/
def extractT0 (now : ℚ) (logs : List LogData) : ℚ :=
  logs.foldl (fun t l => if fileT0 l < t then fileT0 l else t) now

/-- Python `list.insert(i, a)` (clamping semantics). -/
def pyInsert {α : Type} (l : List α) (i : ℕ) (a : α) : List α :=
  l.take i ++ a :: l.drop i

/-- Python `max(list)`: `None` on an empty list (a `ValueError` at the call
sites). -/
def pyMax {α : Type} [Max α] : List α → Option α
  | [] => none
  | x :: xs => some (xs.foldl max x)

/-- The `process_indices` loop of `verify_phases`: record the column index at
which each rank's block of rows begins, stopping once the highest rank has
been seen.  `prev` is Python's `previous_process`, initially `-1`. -/
def indicesLoop (nprocs : ℕ) : List ℕ → ℕ → ℤ → List (Option ℕ) → List (Option ℕ)
  | [], _, _, idxs => idxs
  | p :: rest, i, prev, idxs =>
    if (p : ℤ) = prev then indicesLoop nprocs rest (i + 1) prev idxs
    else
      let idxs' := idxs.set p (some i)
      if p = nprocs - 1 then idxs' else indicesLoop nprocs rest (i + 1) (p : ℤ) idxs'

/-- The comprehension
`[process_indices[i+1]-process_indices[i] for i in range(len(...)-1)]`; a
`None` entry raises `TypeError` in Python. -/
def diffsLoop : List (Option ℕ) → Except String (List ℤ)
  | [] => .ok []
  | [_] => .ok []
  | a :: b :: rest =>
    match a, b with
    | some x, some y =>
      match diffsLoop (b :: rest) with
      | .error e => .error e
      | .ok ds => .ok (((y : ℤ) - (x : ℤ)) :: ds)
    | _, _ => .error "TypeError: unsupported operand type for -: NoneType"

/-- The message of the fatal error of `verify_phases`. -/
def inconsistentMsg : String := "I don't know how to solve this inconsistent set of columns"

/-- The entry-index loop of `verify_phases`: at each checked entry index, a
recorded rank other than 0 must be rank 1 (root's block ended early and
rank 1 shows through); then a synthesized rank-0 row is inserted, with phase
and end copied from rank 1's entry at the same offset inside rank 1's block
and start equal to the preceding row's end.  Any other rank is the fatal
`RuntimeError`.  The fuel is `max_number_of_entries`, fixed before the loop
starts. -/
def verifyLoop (idxs : List (Option ℕ)) : ℕ → ℕ → Columns → Except String Columns
  | 0, _, c => .ok c
  | fuel + 1, idx, c =>
    match c.phase_list.get? idx with
    | none => .error "IndexError: list index out of range"
    | some _ =>
      match c.process_list.get? idx with
      | none => .error "IndexError: list index out of range"
      | some p =>
        if p ≠ 0 then
          if p ≠ 1 then .error inconsistentMsg
          else
            match idxs.get? 1 with
            | none => .error "IndexError: list index out of range"
            | some none => .error "TypeError: unsupported operand type for +: NoneType"
            | some (some p1) =>
              match c.phase_list.get? (p1 + idx) with
              | none => .error "IndexError: list index out of range"
              | some mph =>
                match c.end_list.get? (p1 + idx) with
                | none => .error "IndexError: list index out of range"
                | some mend =>
                  match pyIndexI c.end_list ((idx : ℤ) - 1) with
                  | .error e => .error e
                  | .ok prevEnd =>
                    verifyLoop idxs fuel (idx + 1)
                      ⟨pyInsert c.process_list idx 0,
                       pyInsert c.phase_list idx mph,
                       pyInsert c.start_list idx prevEnd,
                       pyInsert c.end_list idx mend⟩
        else verifyLoop idxs fuel (idx + 1) c

/-- Model of `verify_phases` from `timeline.py`. -/
def verify_phases (c : Columns) : Except String Columns :=
  match pyMax c.process_list with
  | none => .error "ValueError: max() arg is an empty sequence"
  | some mx =>
    let nprocs := mx + 1
    let idxs := indicesLoop nprocs c.process_list 0 (-1) (List.replicate nprocs none)
    match diffsLoop idxs with
    | .error e => .error e
    | .ok diffs =>
      match pyMax diffs with
      | none => .error "ValueError: max() arg is an empty sequence"
      | some m => verifyLoop idxs m.toNat 0 c

/-- Model of `TimeLineExtractor.extract`: compute the global `t_0`, concatenate the
per-file contributions, and invoke `verify_phases` when more than one log
file contributed.  A log file with an empty contents table raises
`IndexError` in the original (`contents["Time"][0]`). -/
def extract (now : ℚ) (logs : List LogData) : Except String Columns :=
  if logs.all (fun l => !l.contents.isEmpty) then
    let t0 := extractT0 now logs
    let cols := logs.foldl (fun acc l => appendColumns acc (fileColumns t0 l)) ⟨[], [], [], []⟩
    if logs.length > 1 then verify_phases cols else .ok cols
  else .error "IndexError: list index out of range"

/-! ### The timeline table (`TimeLineTable`) -/

/-- One row of the timeline table. -/
structure TimelineRow where
  process : ℕ
  phase : Option Phase
  start_time : ℚ
  end_time : ℚ
deriving DecidableEq, Repr

/-- Rows from equally long column lists. -/
def zipRows : List ℕ → List (Option Phase) → List ℚ → List ℚ → List TimelineRow
  | p :: ps, ph :: phs, s :: ss, e :: es => ⟨p, ph, s, e⟩ :: zipRows ps phs ss es
  | _, _, _, _ => []

/-- The timeline table: the four columns, viewed as rows. -/
structure TimeLineTable where
  rows : List TimelineRow
deriving DecidableEq, Repr

/-- Model of `TimeLineTable.from_columns`: the astropy `Table` constructor validates
that all columns have the same length. -/
def from_columns (c : Columns) : Except String TimeLineTable :=
  if c.process_list.length = c.phase_list.length ∧
      c.phase_list.length = c.start_list.length ∧
      c.start_list.length = c.end_list.length
  then .ok ⟨zipRows c.process_list c.phase_list c.start_list c.end_list⟩
  else .error "ValueError: inconsistent data column lengths"

/-- The loop of `TimeLineTable.duration`: scan rows, stopping at the first
row of a rank above 0; accumulate `end - start` over rows of the requested
phase, or return the first matching row's value when `single`. -/
def durationGo (phase : Option Phase) (single : Bool) : ℚ → List TimelineRow → ℚ
  | total, [] => total
  | total, r :: rest =>
    if r.process > 0 then total
    else if r.phase = phase then
      if single then r.end_time - r.start_time
      else durationGo phase single (total + (r.end_time - r.start_time)) rest
    else durationGo phase single total rest

/-- Model of `TimeLineTable.duration`: the `assert self["Process rank"][0] == 0` of
the source raises on an empty table (`IndexError`) or a table whose first
row is not rank 0 (`AssertionError`). -/
def duration (t : TimeLineTable) (phase : Option Phase) (single : Bool) : Except String ℚ :=
  match t.rows with
  | [] => .error "IndexError: list index out of range"
  | r0 :: _ =>
    if r0.process ≠ 0 then .error "AssertionError"
    else .ok (durationGo phase single 0 t.rows)

/-- Model of `TimeLineTable.stellar`, that is `duration("stellar", single=True)`. -/
def stellar (t : TimeLineTable) : Except String ℚ :=
  duration t (some .stellar) true

/-- The loop of `TimeLineTable.dustem`: scan the rows in reverse order,
breaking (returning `None`) at a rank above 0, and returning `end - start` of
the first dust row found. -/
def dustemGo : List TimelineRow → Option ℚ
  | [] => none
  | r :: rest =>
    if r.process > 0 then none
    else if r.phase = some .dust then some (r.end_time - r.start_time)
    else dustemGo rest

/-- Model of `TimeLineTable.dustem` (a Python function that falls off the loop returns
`None`). -/
def dustem (t : TimeLineTable) : Option ℚ :=
  dustemGo t.rows.reverse

/-- A two-process table: process 0's single dust row followed by process 1's
block. -/
def c5table : TimeLineTable :=
  ⟨[⟨0, some .dust, 0, 5⟩, ⟨1, some .dust, 0, 5⟩]⟩

/-- The two-process scenario columns: process 0 records
start 0-2, setup 2-8, stellar 8-8, write 8-8 and process 1 additionally a
trailing wait phase ending at 9. -/
def c3cexInput : Columns :=
  ⟨[0, 0, 0, 0, 1, 1, 1, 1, 1],
   [some .start, some .setup, some .stellar, some .write,
    some .start, some .setup, some .stellar, some .write, some .wait],
   [0, 2, 8, 8, 0, 2, 8, 8, 8],
   [2, 8, 8, 8, 2, 8, 8, 8, 9]⟩

/-- The rows of the two-process scenario table. -/
def c3cexTable : TimeLineTable :=
  ⟨[⟨0, some .start, 0, 2⟩, ⟨0, some .setup, 2, 8⟩, ⟨0, some .stellar, 8, 8⟩,
    ⟨0, some .write, 8, 8⟩,
    ⟨1, some .start, 0, 2⟩, ⟨1, some .setup, 2, 8⟩, ⟨1, some .stellar, 8, 8⟩,
    ⟨1, some .write, 8, 8⟩, ⟨1, some .wait, 8, 9⟩]⟩

/-- The three-process analogue: processes 1 and 2 each record the extra
trailing wait phase that process 0 lacks. -/
def c3input : Columns :=
  ⟨[0, 0, 0, 0, 1, 1, 1, 1, 1, 2, 2, 2, 2, 2],
   [some .start, some .setup, some .stellar, some .write,
    some .start, some .setup, some .stellar, some .write, some .wait,
    some .start, some .setup, some .stellar, some .write, some .wait],
   [0, 2, 8, 8, 0, 2, 8, 8, 8, 0, 2, 8, 8, 8],
   [2, 8, 8, 8, 2, 8, 8, 8, 9, 2, 8, 8, 8, 9]⟩

/-- The repaired columns: a rank-0 wait row is inserted at position 4 with
phase and end time copied from rank 1's entry at the same in-block offset and
start equal to the preceding row's end. -/
def c3expected : Columns :=
  ⟨[0, 0, 0, 0, 0, 1, 1, 1, 1, 1, 2, 2, 2, 2, 2],
   [some .start, some .setup, some .stellar, some .write, some .wait,
    some .start, some .setup, some .stellar, some .write, some .wait,
    some .start, some .setup, some .stellar, some .write, some .wait],
   [0, 2, 8, 8, 8, 0, 2, 8, 8, 8, 0, 2, 8, 8, 8],
   [2, 8, 8, 8, 9, 2, 8, 8, 8, 9, 2, 8, 8, 8, 9]⟩

/-- The rows of the repaired three-process table. -/
def c3table : TimeLineTable :=
  ⟨[⟨0, some .start, 0, 2⟩, ⟨0, some .setup, 2, 8⟩, ⟨0, some .stellar, 8, 8⟩,
    ⟨0, some .write, 8, 8⟩, ⟨0, some .wait, 8, 9⟩,
    ⟨1, some .start, 0, 2⟩, ⟨1, some .setup, 2, 8⟩, ⟨1, some .stellar, 8, 8⟩,
    ⟨1, some .write, 8, 8⟩, ⟨1, some .wait, 8, 9⟩,
    ⟨2, some .start, 0, 2⟩, ⟨2, some .setup, 2, 8⟩, ⟨2, some .stellar, 8, 8⟩,
    ⟨2, some .write, 8, 8⟩, ⟨2, some .wait, 8, 9⟩]⟩

/-- An inconsistent column set: the ranks appear in the order 0, 2, 1, 3, so
the reconciler's scan finds rank 2 at checked entry index 1. -/
def c4input : Columns :=
  ⟨[0, 2, 1, 3],
   [some .start, some .start, some .start, some .start],
   [0, 0, 0, 0],
   [1, 1, 1, 1]⟩

/-! ### Theorems -/

theorem pyIn_iff (needle hay : List Char) : pyIn needle hay = true ↔ needle <:+: hay := by
  induction hay with
  | nil =>
    cases needle <;> simp [pyIn, List.isEmpty]
  | cons c rest ih =>
    simp [pyIn, List.infix_cons_iff, ih]

theorem pyIn_refl (l : List Char) : pyIn l l = true :=
  (pyIn_iff l l).mpr List.infix_rfl

theorem pyIn_trans {a b c : List Char} (h1 : pyIn a b = true) (h2 : pyIn b c = true) :
    pyIn a c = true :=
  (pyIn_iff a c).mpr (((pyIn_iff a b).mp h1).trans ((pyIn_iff b c).mp h2))

/-- C2: `get_phase` evaluates the substring predicates in the fixed order
start, end-markers, setup, wait, comm, stellar, spectra, dust, write, returning
the phase of the first predicate that matches and the current phase unchanged
when none matches; the "Starting the stellar emission phase" line yields
`stellar` for any current phase, and an immediately following unrelated info
line retains `stellar`. -/
theorem c2_get_phase_first_match :
    (∀ (line : List Char) (current : Option Phase),
        get_phase line current = (firstRuleMatch phaseRules line).getD current)
    ∧ (∀ current : Option Phase, get_phase stellarLine current = some Phase.stellar)
    ∧ get_phase followLine (some Phase.stellar) = some Phase.stellar := by
  refine ⟨?_, ?_, ?_⟩
  · intro line current
    simp only [get_phase, phaseRules, firstRuleMatch]
    cases search_start line <;> cases search_end line <;> cases search_setup line <;>
      cases search_wait line <;> cases search_comm line <;> cases search_stellar line <;>
      cases search_spectra line <;> cases search_dust line <;> cases search_write line <;>
      simp
  · intro current
    have h1 : search_start stellarLine = false := by decide
    have h2 : search_end stellarLine = false := by decide
    have h3 : search_setup stellarLine = false := by decide
    have h4 : search_wait stellarLine = false := by decide
    have h5 : search_comm stellarLine = false := by decide
    have h6 : search_stellar stellarLine = true := by decide
    simp [get_phase, h1, h2, h3, h4, h5, h6]
  · decide

/-- Evaluation of `search_wait` as a disjunction of the six marker containment tests. -/
theorem search_wait_or (line : List Char) :
    search_wait line
      = (pyIn (waitMarker 0) line || (pyIn (waitMarker 1) line || (pyIn (waitMarker 2) line ||
          (pyIn (waitMarker 3) line || (pyIn (waitMarker 4) line || pyIn (waitMarker 5) line))))) := by
  unfold search_wait
  cases h0 : pyIn (waitMarker 0) line <;> cases h1 : pyIn (waitMarker 1) line <;>
    cases h2 : pyIn (waitMarker 2) line <;> cases h3 : pyIn (waitMarker 3) line <;>
    cases h4 : pyIn (waitMarker 4) line <;> cases h5 : pyIn (waitMarker 5) line <;>
    simp [h0, h1, h2, h3, h4, h5]

/-- Predicate `search_wait` holds exactly when the line contains one of the six wait
markers of the source. -/
theorem search_wait_iff (line : List Char) :
    search_wait line = true ↔ ∃ k : Fin 6, pyIn (waitMarker k) line = true := by
  rw [search_wait_or]
  simp only [Bool.or_eq_true]
  constructor
  · rintro (h | h | h | h | h | h)
    exacts [⟨0, h⟩, ⟨1, h⟩, ⟨2, h⟩, ⟨3, h⟩, ⟨4, h⟩, ⟨5, h⟩]
  · rintro ⟨k, hk⟩
    fin_cases k
    · exact Or.inl hk
    · exact Or.inr (Or.inl hk)
    · exact Or.inr (Or.inr (Or.inl hk))
    · exact Or.inr (Or.inr (Or.inr (Or.inl hk)))
    · exact Or.inr (Or.inr (Or.inr (Or.inr (Or.inl hk))))
    · exact Or.inr (Or.inr (Or.inr (Or.inr (Or.inr hk))))

/-- No wait marker is a substring of a different wait marker. -/
theorem waitMarker_infix_eq (k j : Fin 6) (h : pyIn (waitMarker k) (waitMarker j) = true) :
    k = j := by
  revert h
  fin_cases k <;> fin_cases j <;> simp <;> decide

/-- C6 counterexample: there is no list of exactly five marker phrases whose
substring tests characterise `search_wait`; the source tests six independent
"Waiting for other processes ..." phrases, and a five-pattern substring
predicate cannot match exactly the same lines. -/
theorem c6_counterexample :
    ¬ ∃ m : Fin 5 → List Char,
        ∀ line : List Char, search_wait line = true ↔ ∃ i : Fin 5, pyIn (m i) line = true := by
  rintro ⟨m, hm⟩
  have hw : ∀ j : Fin 6, ∃ i : Fin 5, pyIn (m i) (waitMarker j) = true := by
    intro j
    refine (hm (waitMarker j)).mp ?_
    exact (search_wait_iff (waitMarker j)).mpr ⟨j, pyIn_refl _⟩
  choose f hf using hw
  obtain ⟨j, j', hne, heq⟩ := Fintype.exists_ne_map_eq_of_card_lt f (by decide)
  have h1 : pyIn (m (f j)) (waitMarker j) = true := hf j
  have h2 : pyIn (m (f j)) (waitMarker j') = true := heq ▸ hf j'
  have h3 : search_wait (m (f j)) = true :=
    (hm (m (f j))).mpr ⟨f j, pyIn_refl _⟩
  obtain ⟨k, hk⟩ := (search_wait_iff (m (f j))).mp h3
  have e1 : k = j := waitMarker_infix_eq k j (pyIn_trans hk h1)
  have e2 : k = j' := waitMarker_infix_eq k j' (pyIn_trans hk h2)
  exact hne (e1 ▸ e2)

/-- C6 amended: the wait-phase predicate matches exactly six fixed
"Waiting for other processes ..." marker phrases: a line satisfies
`search_wait` iff it contains one of the six markers, and the six markers are
independent (no marker is a substring of a different one, so the set cannot be
reduced). -/
theorem c6_amended_six_markers :
    (∀ line : List Char, search_wait line = true ↔ ∃ k : Fin 6, pyIn (waitMarker k) line = true)
    ∧ (∀ k j : Fin 6, pyIn (waitMarker k) (waitMarker j) = true → k = j) :=
  ⟨search_wait_iff, waitMarker_infix_eq⟩

/-- Witness for the hypothesis-bearing part of the amended C6 theorem, at
marker index 0 contained in marker 0. -/
theorem c6_amended_six_markers_witness : (0 : Fin 6) = 0 :=
  c6_amended_six_markers.2 0 0 (by decide)

/-- C8 counterexample: the date token "aa/bb/2020" cannot be split into three
numeric fields (the fields are not numeric), yet `parse_date_time` raises the
uncaught `int()` ValueError instead of returning the non-fatal `None`. -/
theorem c8_counterexample :
    parse_date_time "aa/bb/2020".data "10:22:01.123".data = .error intErrMsg := by
  decide

/-- When the date token does not split into exactly three '/'-separated
fields, the protected unpacking fails and `parse_date_time` returns the
non-fatal `None`. -/
theorem parse_date_time_none (date time : List Char)
    (h : (pySplit ['/'] date).length ≠ 3) :
    parse_date_time date time = .ok none := by
  unfold parse_date_time
  rcases hp : pySplit ['/'] date with _ | ⟨a, _ | ⟨b, _ | ⟨c, _ | ⟨d, rest⟩⟩⟩⟩ <;> simp_all

/-- Evaluation of one `parse` iteration on a kept line in plain (non-verbose,
non-memory) mode with a parseable timestamp and a column-24 character. -/
theorem parseStep_plain (st : PState) (l : List Char)
    (hkeep : pyIn errMarker l = false)
    (hv : (match st.verbose with | none => pyIn "[P".data l.dropLast | some b => b) = false)
    (hm : (match st.memory with | none => pyIn "GB)".data l.dropLast | some b => b) = false)
    (t : Option Datetime) (ht : parse_line l.dropLast = .ok t)
    (c : Char) (hc : l.dropLast.get? 24 = some c) :
    parseStep st l =
      match sevOf c with
      | none => .error sevErrMsg
      | some sev =>
        .ok ⟨st.times ++ [t], st.phases ++ [get_phase l.dropLast st.current],
             st.messages ++ [l.dropLast.drop 26], st.types ++ [sev], st.memories,
             some false, some false, get_phase l.dropLast st.current⟩ := by
  have hc' : l.dropLast[24]? = some c := by simpa using hc
  cases hs : sevOf c <;> simp [parseStep, hkeep, hv, hm, ht, hc', hs]

/-- Invariant of the `parse` loop in plain mode: the loop raises the severity
ValueError exactly when some kept line carries an unrecognised character at
column 24, and on success the "Type" column extends the accumulated one by
the mapped severities of the kept lines. -/
theorem parseLines_sev (lines : List (List Char)) : ∀ st : PState,
    ((st.verbose = some false ∧ st.memory = some false) ∨
      (st.verbose = none ∧ st.memory = none ∧
        ∀ l, (lines.filter keepLine).head? = some l →
          pyIn "[P".data l.dropLast = false ∧ pyIn "GB)".data l.dropLast = false)) →
    (∀ l ∈ lines, keepLine l = true → ∃ t, parse_line l.dropLast = .ok t) →
    (∀ l ∈ lines, keepLine l = true → ∃ c, l.dropLast.get? 24 = some c) →
    (parseLines st lines = .error sevErrMsg ↔
      ∃ l ∈ lines, keepLine l = true ∧ sevOf24 l = none)
    ∧ (∀ res, parseLines st lines = .ok res →
        res.types = st.types ++ (lines.filter keepLine).filterMap sevOf24) := by
  induction lines with
  | nil =>
    intro st _ _ _
    refine ⟨by simp [parseLines], ?_⟩
    intro res hres
    simp only [parseLines] at hres
    cases hres
    simp
  | cons l rest ih =>
    intro st hflags hpl hlen
    by_cases hk : keepLine l = true
    · obtain ⟨t, ht⟩ := hpl l (List.mem_cons_self l rest) hk
      obtain ⟨c, hc⟩ := hlen l (List.mem_cons_self l rest) hk
      have hc' : l.dropLast[24]? = some c := by simpa using hc
      have hkeep' : pyIn errMarker l = false := by
        simpa [keepLine] using hk
      have hfilter : (l :: rest).filter keepLine = l :: rest.filter keepLine := by
        simp [List.filter, hk]
      have hv : (match st.verbose with
          | none => pyIn "[P".data l.dropLast | some b => b) = false := by
        rcases hflags with ⟨h1, _⟩ | ⟨h1, _, h3⟩
        · simp [h1]
        · exact h1 ▸ (h3 l (by simp [hfilter])).1
      have hm : (match st.memory with
          | none => pyIn "GB)".data l.dropLast | some b => b) = false := by
        rcases hflags with ⟨_, h2⟩ | ⟨_, h2, h3⟩
        · simp [h2]
        · exact h2 ▸ (h3 l (by simp [hfilter])).2
      have hstep := parseStep_plain st l hkeep' hv hm t ht c hc
      cases hs : sevOf c with
      | none =>
        rw [hs] at hstep
        have hrun : parseLines st (l :: rest) = .error sevErrMsg := by
          simp [parseLines, hstep]
        refine ⟨?_, ?_⟩
        · rw [hrun]
          simp only [true_iff]
          exact ⟨l, List.mem_cons_self l rest, hk, by simp [sevOf24, hc', hs]⟩
        · intro res hres
          rw [hrun] at hres
          cases hres
      | some sev =>
        rw [hs] at hstep
        have hrun : parseLines st (l :: rest) =
            parseLines ⟨st.times ++ [t], st.phases ++ [get_phase l.dropLast st.current],
              st.messages ++ [l.dropLast.drop 26], st.types ++ [sev], st.memories,
              some false, some false, get_phase l.dropLast st.current⟩ rest := by
          simp [parseLines, hstep]
        have ih' := ih ⟨st.times ++ [t], st.phases ++ [get_phase l.dropLast st.current],
            st.messages ++ [l.dropLast.drop 26], st.types ++ [sev], st.memories,
            some false, some false, get_phase l.dropLast st.current⟩ (Or.inl ⟨rfl, rfl⟩)
          (fun x hx hkx => hpl x (List.mem_cons_of_mem l hx) hkx)
          (fun x hx hkx => hlen x (List.mem_cons_of_mem l hx) hkx)
        have hgood : sevOf24 l = some sev := by simp [sevOf24, hc', hs]
        refine ⟨?_, ?_⟩
        · rw [hrun, ih'.1]
          constructor
          · rintro ⟨x, hx, hkx, hbx⟩
            exact ⟨x, List.mem_cons_of_mem l hx, hkx, hbx⟩
          · rintro ⟨x, hx, hkx, hbx⟩
            rcases List.mem_cons.mp hx with hxl | hxr
            · subst hxl
              rw [hgood] at hbx
              cases hbx
            · exact ⟨x, hxr, hkx, hbx⟩
        · intro res hres
          rw [hrun] at hres
          have := ih'.2 res hres
          rw [this, hfilter]
          simp [hgood, List.append_assoc]
    · have hkeep' : pyIn errMarker l = true := by
        revert hk
        simp [keepLine]
      have hstep : parseStep st l = .ok st := by
        simp [parseStep, hkeep']
      have hrun : parseLines st (l :: rest) = parseLines st rest := by
        simp [parseLines, hstep]
      have hkfalse : keepLine l = false := by
        simp [keepLine, hkeep']
      have hfilter : (l :: rest).filter keepLine = rest.filter keepLine := by
        simp [List.filter, hkfalse]
      have hflags' : (st.verbose = some false ∧ st.memory = some false) ∨
          (st.verbose = none ∧ st.memory = none ∧
            ∀ x, (rest.filter keepLine).head? = some x →
              pyIn "[P".data x.dropLast = false ∧ pyIn "GB)".data x.dropLast = false) := by
        rcases hflags with h | ⟨h1, h2, h3⟩
        · exact Or.inl h
        · exact Or.inr ⟨h1, h2, fun x hx => h3 x (by rw [hfilter]; exact hx)⟩
      have ih' := ih st hflags'
        (fun x hx hkx => hpl x (List.mem_cons_of_mem l hx) hkx)
        (fun x hx hkx => hlen x (List.mem_cons_of_mem l hx) hkx)
      refine ⟨?_, ?_⟩
      · rw [hrun, ih'.1]
        constructor
        · rintro ⟨x, hx, hkx, hbx⟩
          exact ⟨x, List.mem_cons_of_mem l hx, hkx, hbx⟩
        · rintro ⟨x, hx, hkx, hbx⟩
          rcases List.mem_cons.mp hx with hxl | hxr
          · subst hxl
            exact absurd hkx hk
          · exact ⟨x, hxr, hkx, hbx⟩
      · intro res hres
        rw [hrun] at hres
        rw [ih'.2 res hres, hfilter]

/-- C7: in plain mode (first kept line carries neither the verbose nor the
memory tag), with parseable timestamps and lines long enough to carry the
severity column, the severity character at column 24 maps space to info,
'-' to success, '!' to warning, '*' to error (recorded in the "Type" column),
and `parse` raises the fatal "Could not determine the type of log message"
error if and only if some kept line carries any other character at that
column. -/
theorem c7_severity_mapping (lines : List (List Char))
    (hpl : ∀ l ∈ lines, keepLine l = true → exOk (parse_line l.dropLast) = true)
    (hlen : ∀ l ∈ lines, keepLine l = true → (l.dropLast.get? 24).isSome = true)
    (hplain : ∀ l, (lines.filter keepLine).head? = some l →
      pyIn "[P".data l.dropLast = false ∧ pyIn "GB)".data l.dropLast = false) :
    (parse lines = .error sevErrMsg ↔
      ∃ l ∈ lines, keepLine l = true ∧ sevOf24 l = none)
    ∧ (∀ res, parse lines = .ok res →
        res.types = (lines.filter keepLine).filterMap sevOf24) := by
  have hpl' : ∀ l ∈ lines, keepLine l = true → ∃ t, parse_line l.dropLast = .ok t := by
    intro l hl hk
    have := hpl l hl hk
    cases h : parse_line l.dropLast with
    | ok t => exact ⟨t, rfl⟩
    | error e => rw [h] at this; cases this
  have hlen' : ∀ l ∈ lines, keepLine l = true → ∃ c, l.dropLast.get? 24 = some c := by
    intro l hl hk
    exact Option.isSome_iff_exists.mp (hlen l hl hk)
  have h := parseLines_sev lines pInit (Or.inr ⟨rfl, rfl, hplain⟩) hpl' hlen'
  exact ⟨h.1, fun res hres => by simpa using h.2 res hres⟩

/-- Witness for C7 at a concrete two-line file. -/
theorem c7_severity_mapping_witness :
    (parse c7lines = .error sevErrMsg ↔
      ∃ l ∈ c7lines, keepLine l = true ∧ sevOf24 l = none)
    ∧ (∀ res, parse c7lines = .ok res →
        res.types = (c7lines.filter keepLine).filterMap sevOf24) :=
  c7_severity_mapping c7lines (by decide) (by decide) (by decide)

/-- C8 amended: when the date token does not split into exactly three
'/'-separated fields, `parse_date_time` returns the non-fatal `None`
(regardless of numeric content; three non-numeric fields instead raise the
uncaught `int()` error), and the log file parser records such a line's
timestamp as `None` ("timestamp unknown") and continues parsing the rest of
the file. -/
theorem c8_amended_unparseable_date :
    (∀ date time : List Char, (pySplit ['/'] date).length ≠ 3 →
        parse_date_time date time = .ok none)
    ∧ parse c8lines = .ok
        ⟨[none, some ⟨2020, 4, 3, 10, 22, 2, 456⟩],
         [none, some .start],
         ["Finished setup.".data, "Starting simulation a6 with 4 processes".data],
         [.success, .info], [], some false, some false, some .start⟩ := by
  refine ⟨fun date time h => parse_date_time_none date time h, ?_⟩
  decide

/-- Witness for the hypothesis-bearing part of the amended C8 theorem. -/
theorem c8_amended_unparseable_date_witness :
    parse_date_time "03-04-2020".data "10:22:01.123".data = .ok none :=
  c8_amended_unparseable_date.1 "03-04-2020".data "10:22:01.123".data (by decide)

/-- C9 counterexample: a log whose only message is a thread-initialisation
message contains the pattern, yet `threads` raises the fatal error because
the matching run extends to the end of the log — refuting "fails fatally if
and only if that thread-initialization pattern is absent". -/
theorem c9_counterexample :
    pyIn initMarker c9msg0 = true ∧ threads [c9msg0] = .error threadsErrMsg := by
  decide

/-- Leading non-matching messages are skipped without changing the state. -/
theorem threadsLoop_skip : ∀ (pre : List (List Char)),
    (∀ m ∈ pre, pyIn initMarker m = false) →
    ∀ (rest : List (List Char)) (mx : ℤ),
      threadsLoop (pre ++ rest) false mx = threadsLoop rest false mx
  | [], _, _, _ => rfl
  | m :: pre, h, rest, mx => by
    have hm : pyIn initMarker m = false := h m (List.mem_cons_self m pre)
    simp only [List.cons_append, threadsLoop, hm]
    simp only [Bool.false_eq_true, if_false]
    exact threadsLoop_skip pre (fun x hx => h x (List.mem_cons_of_mem m hx)) rest mx

/-- Scanning a run of matching messages with parseable indices ends in the
triggered state carrying the index of the last message of the run. -/
theorem threadsLoop_run : ∀ (run : List (List Char)) (mlast : List Char) (n : ℤ),
    (∀ m ∈ run ++ [mlast], pyIn initMarker m = true) →
    (∀ m ∈ run, exOk (threadIdx m) = true) →
    threadIdx mlast = .ok n →
    ∀ (xs : List (List Char)) (trig : Bool) (mx : ℤ),
      threadsLoop ((run ++ [mlast]) ++ xs) trig mx = threadsLoop xs true n
  | [], mlast, n, hmark, _, hlast, xs, trig, mx => by
    have hm : pyIn initMarker mlast = true := hmark mlast (by simp)
    simp [threadsLoop, hm, hlast]
  | m :: run, mlast, n, hmark, hidx, hlast, xs, trig, mx => by
    have hm : pyIn initMarker m = true := hmark m (by simp)
    have hok := hidx m (List.mem_cons_self m run)
    have ht : ∃ t, threadIdx m = .ok t := by
      cases h : threadIdx m with
      | ok t => exact ⟨t, rfl⟩
      | error e => rw [h] at hok; cases hok
    obtain ⟨t, htt⟩ := ht
    simp only [List.cons_append, threadsLoop, hm, htt, if_true]
    exact threadsLoop_run run mlast n (fun x hx => hmark x (by simpa using Or.inr (by simpa using hx)))
      (fun x hx => hidx x (List.mem_cons_of_mem m hx)) hlast xs true t

/-- C9 amended: `threads` fails fatally when no thread-initialisation message
is present; when the first consecutive run of such messages (with parseable
indices) is followed by a further non-matching message, it returns one plus
the index read from the last message of the run (the maximum index when the
indices increase through the run, as SKIRT writes them); and it also fails
fatally when the matching run extends to the very end of the log. -/
theorem c9_amended_threads :
    (∀ msgs : List (List Char), (∀ m ∈ msgs, pyIn initMarker m = false) →
        threads msgs = .error threadsErrMsg)
    ∧ (∀ (pre run : List (List Char)) (mlast post : List Char)
          (rest : List (List Char)) (n : ℤ),
        (∀ m ∈ pre, pyIn initMarker m = false) →
        (∀ m ∈ run ++ [mlast], pyIn initMarker m = true) →
        (∀ m ∈ run, exOk (threadIdx m) = true) →
        threadIdx mlast = .ok n →
        pyIn initMarker post = false →
        threads (pre ++ (run ++ [mlast]) ++ (post :: rest)) = .ok (n + 1))
    ∧ (∀ (pre run : List (List Char)) (mlast : List Char) (n : ℤ),
        (∀ m ∈ pre, pyIn initMarker m = false) →
        (∀ m ∈ run ++ [mlast], pyIn initMarker m = true) →
        (∀ m ∈ run, exOk (threadIdx m) = true) →
        threadIdx mlast = .ok n →
        threads (pre ++ (run ++ [mlast])) = .error threadsErrMsg) := by
  refine ⟨?_, ?_, ?_⟩
  · intro msgs hpre
    have h := threadsLoop_skip msgs hpre [] 0
    simpa [threads, threadsLoop] using h
  · intro pre run mlast post rest n hpre hmark hidx hlast hpost
    have h1 := threadsLoop_skip pre hpre ((run ++ [mlast]) ++ (post :: rest)) 0
    have h2 := threadsLoop_run run mlast n hmark hidx hlast (post :: rest) false 0
    have h3 : threadsLoop (post :: rest) true n = .ok (n + 1) := by
      simp [threadsLoop, hpost]
    calc threads (pre ++ (run ++ [mlast]) ++ (post :: rest))
        = threadsLoop (pre ++ ((run ++ [mlast]) ++ (post :: rest))) false 0 := by
          simp [threads, List.append_assoc]
      _ = threadsLoop ((run ++ [mlast]) ++ (post :: rest)) false 0 := h1
      _ = threadsLoop (post :: rest) true n := h2
      _ = .ok (n + 1) := h3
  · intro pre run mlast n hpre hmark hidx hlast
    have h1 := threadsLoop_skip pre hpre (run ++ [mlast]) 0
    have h2 := threadsLoop_run run mlast n hmark hidx hlast [] false 0
    calc threads (pre ++ (run ++ [mlast]))
        = threadsLoop (pre ++ (run ++ [mlast])) false 0 := rfl
      _ = threadsLoop (run ++ [mlast]) false 0 := h1
      _ = threadsLoop [] true n := by simpa using h2
      _ = .error threadsErrMsg := rfl

/-- Witness for the amended C9 theorem: a run of two thread-initialisation
messages followed by an unrelated message gives two threads. -/
theorem c9_amended_threads_witness :
    threads [c9msg0, c9msg1, "Finished setup of the random number generator".data] = .ok 2 := by
  have h := c9_amended_threads.2.1 [] [c9msg0] c9msg1
    "Finished setup of the random number generator".data [] 1
    (by decide) (by decide) (by decide) (by decide) (by decide)
  simpa using h

/-- C5: on a multi-process table whose trailing rows belong to a rank above
0, the reverse scan of `dustem` breaks immediately and yields `None` instead
of the duration of process 0's last dust row; on the same table truncated to
process 0's block it yields that duration (5). -/
theorem c5_dustem_multiprocess :
    dustem c5table = none ∧ dustem ⟨[⟨0, some .dust, 0, 5⟩]⟩ = some 5 := by
  refine ⟨rfl, ?_⟩
  norm_num [dustem, dustemGo]

/-- When no row of the leading rank-0 block has the requested phase, the
`single` duration loop leaves the accumulator untouched. -/
theorem durationGo_no_match (ph : Option Phase) :
    ∀ (rows : List TimelineRow) (total : ℚ),
      (∀ r ∈ rows.takeWhile (fun r => r.process == 0), r.phase ≠ ph) →
      durationGo ph true total rows = total
  | [], _, _ => rfl
  | r :: rest, total, h => by
    by_cases hp : r.process > 0
    · simp [durationGo, hp]
    · have hr0 : (r.process == 0) = true := by
        simp [Nat.eq_zero_of_not_pos hp]
      have htw : (r :: rest).takeWhile (fun r => r.process == 0)
          = r :: rest.takeWhile (fun r => r.process == 0) := by
        simp [List.takeWhile_cons, hr0]
      have hne : r.phase ≠ ph := h r (by rw [htw]; exact List.mem_cons_self r _)
      have hrec := durationGo_no_match ph rest total
        (fun x hx => h x (by rw [htw]; exact List.mem_cons_of_mem r hx))
      simp [durationGo, hp, hne, hrec]

/-- C10: for a table whose first row belongs to rank 0 and whose leading
rank-0 block contains no row of the requested phase, `duration(phase,
single=True)` returns the untouched accumulator 0.0 rather than signalling
absence; consequently the named aggregate `stellar` is 0.0 on a table with no
stellar row for process 0. -/
theorem c10_duration_missing_phase (t : TimeLineTable) (ph : Option Phase)
    (r0 : TimelineRow) (rs : List TimelineRow)
    (hrows : t.rows = r0 :: rs) (h0 : r0.process = 0)
    (hno : ∀ r ∈ t.rows.takeWhile (fun r => r.process == 0), r.phase ≠ ph) :
    duration t ph true = .ok 0 ∧ (ph = some Phase.stellar → stellar t = .ok 0) := by
  have hdur : duration t ph true = .ok 0 := by
    unfold duration
    rw [hrows]
    simp only [h0]
    rw [durationGo_no_match ph (r0 :: rs) 0 (by rw [← hrows]; exact hno)]
    simp
  refine ⟨hdur, ?_⟩
  intro hst
  unfold stellar
  rw [← hst]
  exact hdur

/-- Witness for C10: a table whose only row is a rank-0 setup row has
`stellar = 0`. -/
theorem c10_duration_missing_phase_witness :
    duration ⟨[⟨0, some .setup, 0, 3⟩]⟩ (some .stellar) true = .ok 0
    ∧ (some Phase.stellar = some Phase.stellar →
        stellar ⟨[⟨0, some .setup, 0, 3⟩]⟩ = .ok 0) :=
  c10_duration_missing_phase ⟨[⟨0, some .setup, 0, 3⟩]⟩ (some .stellar)
    ⟨0, some .setup, 0, 3⟩ [] rfl rfl (by decide)

/-- Sum of pointwise differences of equally long lists. -/
theorem sum_zipWith_sub : ∀ (xs ys : List ℚ), xs.length = ys.length →
    (List.zipWith (fun e s => e - s) xs ys).sum = xs.sum - ys.sum
  | [], [], _ => by simp
  | [], _ :: _, h => by cases h
  | _ :: _, [], h => by cases h
  | x :: xs, y :: ys, h => by
    have := sum_zipWith_sub xs ys (by simpa using h)
    simp only [List.zipWith_cons_cons, List.sum_cons, this]
    ring

/-- Appending a contribution to empty columns. -/
theorem appendColumns_empty (c : Columns) : appendColumns ⟨[], [], [], []⟩ c = c := by
  cases c
  simp [appendColumns]

/-- C1: for a well-formed single-process log (non-empty contents, times
non-decreasing), the rows `extract` emits are contiguous: the first row
starts at `t_0_file - t_0_global`, each row's end equals the next row's
start, the final row ends at `t_last - t_0_global`, and the sum of
`end - start` over the rows equals `t_last - t_0` of that file. -/
theorem c1_extract_contiguous (l : LogData) (now : ℚ)
    (h1 : l.contents ≠ [])
    (h2 : List.Chain' (· ≤ ·) (l.contents.map Prod.fst)) :
    ∃ cols : Columns, extract now [l] = .ok cols
      ∧ cols.process_list = List.replicate cols.start_list.length l.process
      ∧ cols.start_list.head? = some (fileT0 l - extractT0 now [l])
      ∧ (∀ i, i + 1 < cols.start_list.length →
          cols.end_list.get? i = cols.start_list.get? (i + 1))
      ∧ cols.end_list.getLast? = some (fileTLast l - extractT0 now [l])
      ∧ cols.end_list.length = cols.start_list.length
      ∧ (List.zipWith (fun e s => e - s) cols.end_list cols.start_list).sum
          = fileTLast l - fileT0 l := by
  obtain ⟨e, rest, hcont⟩ := List.exists_cons_of_ne_nil h1
  obtain ⟨tf, pf⟩ := e
  set t0 := extractT0 now [l] with ht0
  have hne : l.contents.isEmpty = false := by rw [hcont]; rfl
  have hext : extract now [l] = .ok (fileColumns t0 l) := by
    simp [extract, hne, List.foldl, appendColumns_empty, ht0]
  have hT0 : fileT0 l = tf := by unfold fileT0; rw [hcont]
  have hfc : fileColumns t0 l =
      ⟨List.replicate ((scanChanges pf ((tf, pf) :: rest)).length + 1) l.process,
       pf :: (scanChanges pf ((tf, pf) :: rest)).map Prod.snd,
       (tf - t0) :: (scanChanges pf ((tf, pf) :: rest)).map (fun e => e.1 - t0),
       (scanChanges pf ((tf, pf) :: rest)).map (fun e => e.1 - t0)
         ++ [fileTLast l - t0]⟩ := by
    unfold fileColumns
    rw [hcont]
  set ch := scanChanges pf ((tf, pf) :: rest) with hch
  set S := ch.map (fun e => e.1 - t0) with hS
  refine ⟨fileColumns t0 l, hext, ?_, ?_, ?_, ?_, ?_, ?_⟩
  · rw [hfc]
    simp [hS, List.length_map]
  · rw [hfc, hT0]
    rfl
  · intro i hi
    rw [hfc] at hi ⊢
    simp only [List.length_cons] at hi
    have hiS : i < S.length := by omega
    simp only [List.get?_cons_succ]
    rw [List.get?_eq_getElem?, List.get?_eq_getElem?, List.getElem?_append_left hiS]
  · rw [hfc]
    exact List.getLast?_concat _
  · rw [hfc]
    simp
  · rw [hfc, hT0]
    have hlen : (S ++ [fileTLast l - t0]).length = ((tf - t0) :: S).length := by simp
    rw [sum_zipWith_sub _ _ hlen]
    simp only [List.sum_append, List.sum_cons, List.sum_nil]
    ring

/-- Witness for C1: a three-entry single-process log. -/
theorem c1_extract_contiguous_witness :
    ∃ cols : Columns,
      extract 100 [⟨0, [(0, some .start), (2, some .setup), (10, some .setup)]⟩] = .ok cols
      ∧ cols.process_list = List.replicate cols.start_list.length
          (⟨0, [(0, some .start), (2, some .setup), (10, some .setup)]⟩ : LogData).process
      ∧ cols.start_list.head? = some
          (fileT0 ⟨0, [(0, some .start), (2, some .setup), (10, some .setup)]⟩
            - extractT0 100 [⟨0, [(0, some .start), (2, some .setup), (10, some .setup)]⟩])
      ∧ (∀ i, i + 1 < cols.start_list.length →
          cols.end_list.get? i = cols.start_list.get? (i + 1))
      ∧ cols.end_list.getLast? = some
          (fileTLast ⟨0, [(0, some .start), (2, some .setup), (10, some .setup)]⟩
            - extractT0 100 [⟨0, [(0, some .start), (2, some .setup), (10, some .setup)]⟩])
      ∧ cols.end_list.length = cols.start_list.length
      ∧ (List.zipWith (fun e s => e - s) cols.end_list cols.start_list).sum
          = fileTLast ⟨0, [(0, some .start), (2, some .setup), (10, some .setup)]⟩
            - fileT0 ⟨0, [(0, some .start), (2, some .setup), (10, some .setup)]⟩ :=
  c1_extract_contiguous ⟨0, [(0, some .start), (2, some .setup), (10, some .setup)]⟩ 100
    (by decide) (by norm_num [List.chain'_cons])

/-- C3 counterexample: in the two-process scenario, `verify_phases` returns
the columns unchanged — no wait row is inserted for process 0 (the scan bound
`max_number_of_entries` equals rank 0's block length when only two processes
are present, so the scan never reaches rank 1's rows) — and `duration("wait")`
is 0, not the inserted interval. -/
theorem c3_counterexample :
    verify_phases c3cexInput = .ok c3cexInput
    ∧ from_columns c3cexInput = .ok c3cexTable
    ∧ duration c3cexTable (some .wait) false = .ok 0 := by
  refine ⟨by decide, by decide, by decide⟩

/-- C3 amended: when rank-1 data shows through at a checked entry index —
which requires at least three processes — `verify_phases` inserts a
synthesized rank-0 row whose phase and end time are copied from rank 1's
entry at the equivalent offset and whose start equals the preceding row's
end: in the three-process scenario a wait row for process 0 with start 8 and
end 9 appears at position 4, and `duration("wait")` then includes it. -/
theorem c3_amended_insertion :
    verify_phases c3input = .ok c3expected
    ∧ from_columns c3expected = .ok c3table
    ∧ c3table.rows.get? 4 = some ⟨0, some .wait, 8, 9⟩
    ∧ duration c3table (some .wait) false = .ok 1 := by
  refine ⟨by decide, by decide, by decide, ?_⟩
  rw [show duration c3table (some .wait) false = .ok (0 + (9 - 8) : ℚ) from rfl]
  norm_num

/-- C4: whenever the reconciler's scan loop checks an entry index holding a
process rank that is neither 0 nor 1, it raises the fatal
"I don't know how to solve this inconsistent set of columns" RuntimeError and
performs no repair (the error result carries no repaired columns); the
concrete column set `c4input` triggers exactly this error. -/
theorem c4_verify_rejects_unknown_rank :
    (∀ (idxs : List (Option ℕ)) (fuel idx : ℕ) (c : Columns) (ph : Option Phase) (r : ℕ),
        c.phase_list.get? idx = some ph → c.process_list.get? idx = some r →
        r ≠ 0 → r ≠ 1 →
        verifyLoop idxs (fuel + 1) idx c = .error inconsistentMsg)
    ∧ verify_phases c4input = .error inconsistentMsg := by
  constructor
  · intro idxs fuel idx c ph r hph hpr h0 h1
    have hph' : c.phase_list[idx]? = some ph := by simpa using hph
    have hpr' : c.process_list[idx]? = some r := by simpa using hpr
    simp [verifyLoop, hph', hpr', h0, h1]
  · decide

/-- Witness for C4 at the loop state that `verify_phases c4input` reaches:
checked entry index 1 holds rank 2. -/
theorem c4_verify_rejects_unknown_rank_witness :
    verifyLoop [some 0, some 2, some 1, some 3] 1 1 c4input = .error inconsistentMsg :=
  c4_verify_rejects_unknown_rank.1 [some 0, some 2, some 1, some 3] 0 1 c4input
    (some .start) 2 rfl rfl (by decide) (by decide)
